import Mathlib

/-!
Verification of the ingestion-and-search orchestration layer of the
Image-Audio-Web-Search repository (go-api-provider).

The Go sources are shallowly embedded: float32 values are represented by
their 32-bit IEEE-754 patterns (a `Nat` below `2 ^ 32`), byte buffers by
lists of `Nat` below 256, the database by explicit association lists, and
remote collaborators (feature extractor, storage engine) by oracle
parameters supplied to the embedded functions.
-/

namespace WebSearch

/-! ## Vector codec (internal/client/scrape-client.go, `VectorFromBytes`) -/

/-- A float32 bit pattern is finite (neither NaN nor an infinity) exactly
when its exponent field (bits 23..30) is not all ones. This embeds Go's
`math.IsNaN(float64(v)) || math.IsInf(float64(v), 0)` test on a float32
value `v`, which holds iff the float32 exponent field is `0xFF`. -/
def isFiniteF32 (w : Nat) : Bool := (w / 2 ^ 23) % 256 ≠ 255

/-- Errors of `VectorFromBytes`. `invalidLength` embeds the
"invalid byte slice length ...: must be multiple of 4" error and
`invalidValue` the "deserialized vector contains NaN or Inf at index i"
error. The `binary.Read` failure and the trailing-bytes check in the Go
code are unreachable once the length is a multiple of 4, so they need no
constructor. -/
inductive VecError where
  | invalidLength (n : Nat)
  | invalidValue (i : Nat)
deriving DecidableEq, Repr

/-- Reinterpretation of a byte buffer as consecutive 4-byte little-endian
groups, one word per group: this embeds
`binary.Read(byteReader, binary.LittleEndian, &result)` for a `[]float32`
destination of length `len(data)/4`. -/
def wordsOfBytes : List Nat → List Nat
  | b0 :: b1 :: b2 :: b3 :: rest =>
      (b0 + 256 * b1 + 65536 * b2 + 16777216 * b3) :: wordsOfBytes rest
  | _ => []

/-- Index of the first non-finite element, embedding the Go loop
`for i, v := range result` that returns the error at the first index
whose value is NaN or Inf. -/
def firstNonFinite : List Nat → Option Nat
  | [] => none
  | w :: rest =>
      if isFiniteF32 w then (firstNonFinite rest).map (· + 1) else some 0

/-- Embedding of `client.VectorFromBytes`: reject lengths that are not a
multiple of 4, reinterpret the bytes as little-endian float32 words, and
reject the buffer at the first non-finite element. An empty buffer decodes
to the empty vector. -/
def VectorFromBytes (data : List Nat) : Except VecError (List Nat) :=
  if data.length % 4 ≠ 0 then .error (.invalidLength data.length)
  else
    let result := wordsOfBytes data
    match firstNonFinite result with
    | some i => .error (.invalidValue i)
    | none => .ok result

/-- Modelled from the spec: the encoder half of the vector codec is not
part of the Go sources (it lives on the feature-extraction side of the
wire), so it is taken from the spec's words: "produces `4*len(values)`
bytes, little-endian IEEE-754 layout, one 4-byte group per value, in
input order". This encodes one float32 bit pattern as its 4 little-endian
bytes. -/
def encodeF32 (w : Nat) : List Nat :=
  [w % 256, w / 256 % 256, w / 65536 % 256, w / 16777216 % 256]

/-- Modelled from the spec: `encode(values)` concatenates the 4-byte
little-endian groups of the values in input order. -/
def encode (v : List Nat) : List Nat := (v.map encodeF32).flatten

theorem encodeF32_length (w : Nat) : (encodeF32 w).length = 4 := rfl

theorem encode_cons (w : Nat) (rest : List Nat) :
    encode (w :: rest) = w % 256 :: w / 256 % 256 :: w / 65536 % 256 ::
      w / 16777216 % 256 :: encode rest := by
  simp [encode, encodeF32]

theorem encode_length (v : List Nat) : (encode v).length = 4 * v.length := by
  induction v with
  | nil => rfl
  | cons w rest ih =>
      rw [encode_cons]
      simp only [List.length_cons, ih, List.length_cons]
      omega

theorem f32_le_bytes (w : Nat) (hw : w < 2 ^ 32) :
    w % 256 + 256 * (w / 256 % 256) + 65536 * (w / 65536 % 256) +
      16777216 * (w / 16777216 % 256) = w := by
  omega

theorem wordsOfBytes_encode (v : List Nat) (hb : ∀ w ∈ v, w < 2 ^ 32) :
    wordsOfBytes (encode v) = v := by
  induction v with
  | nil => rfl
  | cons w rest ih =>
      have hw : w < 2 ^ 32 := hb w (List.mem_cons_self w rest)
      have hrest : ∀ x ∈ rest, x < 2 ^ 32 := fun x hx => hb x (List.mem_cons_of_mem w hx)
      rw [encode_cons, wordsOfBytes, ih hrest, f32_le_bytes w hw]

theorem firstNonFinite_eq_none (ws : List Nat) (h : ∀ w ∈ ws, isFiniteF32 w) :
    firstNonFinite ws = none := by
  induction ws with
  | nil => rfl
  | cons w rest ih =>
      have hw : isFiniteF32 w := h w (List.mem_cons_self w rest)
      have hrest := ih (fun x hx => h x (List.mem_cons_of_mem w hx))
      simp [firstNonFinite, hw, hrest]

/-- The claim of C3 as stated: decoding the little-endian encoding of any
finite float32 sequence returns the sequence exactly. -/
theorem decode_encode (v : List Nat) (hb : ∀ w ∈ v, w < 2 ^ 32)
    (hf : ∀ w ∈ v, isFiniteF32 w) : VectorFromBytes (encode v) = .ok v := by
  have hlen : (encode v).length % 4 = 0 := by rw [encode_length]; omega
  have hwords := wordsOfBytes_encode v hb
  have hnone : firstNonFinite v = none := firstNonFinite_eq_none v hf
  unfold VectorFromBytes
  rw [if_neg (by omega)]
  rw [hwords]
  simp only [hnone]

/-- A witness for the round-trip law at the concrete sequence
`[1065353216, 0]` (the patterns of `1.0f` and `0.0f`). -/
theorem decode_encode_witness :
    (∀ w ∈ ([1065353216, 0] : List Nat), w < 2 ^ 32) ∧
    (∀ w ∈ ([1065353216, 0] : List Nat), isFiniteF32 w) ∧
    VectorFromBytes (encode [1065353216, 0]) = .ok [1065353216, 0] :=
  ⟨by decide, by decide, decode_encode [1065353216, 0] (by decide) (by decide)⟩

theorem firstNonFinite_none_all_finite (ws : List Nat)
    (h : firstNonFinite ws = none) : ∀ w ∈ ws, isFiniteF32 w := by
  induction ws with
  | nil => intro w hw; cases hw
  | cons w rest ih =>
      intro x hx
      by_cases hw : isFiniteF32 w
      · simp only [firstNonFinite, hw, if_true] at h
        rcases List.mem_cons.mp hx with rfl | hx'
        · exact hw
        · exact ih (Option.map_eq_none.mp h) x hx'
      · simp [firstNonFinite, hw] at h

theorem firstNonFinite_some_spec (ws : List Nat) (i : Nat)
    (h : firstNonFinite ws = some i) :
    ∃ hi : i < ws.length, isFiniteF32 (ws.get ⟨i, hi⟩) = false ∧
      ∀ j, (hj : j < ws.length) → j < i → isFiniteF32 (ws.get ⟨j, hj⟩) = true := by
  induction ws generalizing i with
  | nil => cases h
  | cons w rest ih =>
      by_cases hw : isFiniteF32 w
      · simp only [firstNonFinite, hw, if_true] at h
        obtain ⟨i', hi', rfl⟩ := Option.map_eq_some.mp h
        obtain ⟨hlt, hbad, hmin⟩ := ih i' hi'
        refine ⟨by simpa using Nat.succ_lt_succ hlt, hbad, ?_⟩
        intro j hj hji
        match j with
        | 0 => simpa using hw
        | j' + 1 =>
            have hj' : j' < rest.length := by simpa using hj
            exact hmin j' hj' (Nat.lt_of_succ_lt_succ hji)
      · simp only [firstNonFinite, hw, if_false] at h
        obtain rfl : i = 0 := by
          cases h
          rfl
        refine ⟨by simp, by simpa using hw, ?_⟩
        intro j hj hji
        omega

/-- Claim C6: for byte input whose length is a multiple of 4, decoding
fails with the invalid-value error reporting the index of the first
non-finite element when one exists, and succeeds when every element is
finite. -/
theorem vectorFromBytes_nonfinite (data : List Nat)
    (h4 : data.length % 4 = 0) :
    ((∀ w ∈ wordsOfBytes data, isFiniteF32 w) →
        VectorFromBytes data = .ok (wordsOfBytes data)) ∧
    ((∃ w ∈ wordsOfBytes data, ¬ isFiniteF32 w) →
      ∃ i, ∃ hi : i < (wordsOfBytes data).length,
        VectorFromBytes data = .error (.invalidValue i) ∧
        isFiniteF32 ((wordsOfBytes data).get ⟨i, hi⟩) = false ∧
        ∀ j, (hj : j < (wordsOfBytes data).length) → j < i →
          isFiniteF32 ((wordsOfBytes data).get ⟨j, hj⟩) = true) := by
  constructor
  · intro hall
    have hnone := firstNonFinite_eq_none _ hall
    unfold VectorFromBytes
    rw [if_neg (by omega)]
    simp only [hnone]
  · intro ⟨w, hw, hbad⟩
    cases hfn : firstNonFinite (wordsOfBytes data) with
    | none =>
        exact absurd (firstNonFinite_none_all_finite _ hfn w hw) hbad
    | some i =>
        obtain ⟨hi, hbadi, hmin⟩ := firstNonFinite_some_spec _ i hfn
        refine ⟨i, hi, ?_, hbadi, hmin⟩
        unfold VectorFromBytes
        rw [if_neg (by omega)]
        simp only [hfn]

/-- A witness for C6 at the single-word buffer `[0, 0, 128, 127]`, whose
only element is the pattern of `+Inf` (so the first offending index is
0). -/
theorem vectorFromBytes_nonfinite_witness :
    VectorFromBytes [0, 0, 128, 127] = .error (.invalidValue 0) := by
  obtain ⟨i, hi, heq, -, -⟩ :=
    (vectorFromBytes_nonfinite [0, 0, 128, 127] (by decide)).2
      ⟨2139095040, by decide, by decide⟩
  have hlen : (wordsOfBytes ([0, 0, 128, 127] : List Nat)).length = 1 := by decide
  have hz : i = 0 := by omega
  subst hz
  exact heq

/-! ## Data model and repository (internal/database/repository.go) -/

/-- Embedding of `models.MediaType` restricted to the two values the
repository supports (`models.ImageType`, `models.AudioType`). -/
inductive MediaType where
  | image
  | audio
deriving DecidableEq, Repr

/-- The persistent store: one table per media class, each a list of
(page_url, feature_vector) rows, a vector being a list of float32 bit
patterns. -/
structure DBState where
  images : List (String × List Nat)
  audio : List (String × List Nat)
deriving DecidableEq, Repr

/-- Table selected by a media type, as in `CheckPageURLExists`'s switch. -/
def tableFor (st : DBState) : MediaType → List (String × List Nat)
  | .image => st.images
  | .audio => st.audio

/-- Embedding of `CheckPageURLExists` (the `SELECT count(*) ... WHERE
page_url = ?` query): true iff some row of the class's table carries the
page URL. The query-failure path is modelled by the caller's oracle. -/
def checkPageURLExists (st : DBState) (pageURL : String) (mt : MediaType) : Bool :=
  (tableFor st mt).any (fun r => r.1 = pageURL)

/-- Storage-level failure, modelling a non-nil `result.Error` from gorm. -/
inductive StoreError where
  | storageFailure
deriving DecidableEq, Repr

/-- Modelled from the spec and the documented semantics of
`INSERT ... ON CONFLICT (page_url) DO NOTHING`, the statement gorm emits
for `clause.OnConflict{Columns: page_url, DoNothing: true}` (the conflict
resolution itself runs inside PostgreSQL, outside the Go sources): when a
row with the key already exists the statement affects 0 rows and leaves
the table unchanged, otherwise it appends the row and affects 1 row.
Returns the new table and the number of rows affected. -/
def insertOnConflictDoNothing (tbl : List (String × List Nat))
    (pageURL : String) (vec : List Nat) : List (String × List Nat) × Nat :=
  if tbl.any (fun r => r.1 = pageURL) then (tbl, 0)
  else (tbl ++ [(pageURL, vec)], 1)

/-- Embedding of `InsertImage`: run the conditional insert on the images
table; a zero rows-affected outcome is only logged, never an error. The
`dbFail` oracle models a non-nil `result.Error` from the store. -/
def InsertImage (dbFail : Bool) (st : DBState) (pageURL : String)
    (vec : List Nat) : Except StoreError DBState :=
  if dbFail then .error .storageFailure
  else .ok { st with images := (insertOnConflictDoNothing st.images pageURL vec).1 }

/-- Embedding of `InsertAudio`, identical to `InsertImage` over the audio
table. -/
def InsertAudio (dbFail : Bool) (st : DBState) (pageURL : String)
    (vec : List Nat) : Except StoreError DBState :=
  if dbFail then .error .storageFailure
  else .ok { st with audio := (insertOnConflictDoNothing st.audio pageURL vec).1 }

/-- Dispatch on media class as performed by the service layer's switch
between `repo.InsertImage` and `repo.InsertAudio`. -/
def insertMedia (dbFail : Bool) (st : DBState) (pageURL : String)
    (vec : List Nat) : MediaType → Except StoreError DBState
  | .image => InsertImage dbFail st pageURL vec
  | .audio => InsertAudio dbFail st pageURL vec

/-- Claim C4: inserting a (pageURL, vector) pair whose pageURL already
exists in the class's table succeeds without error and leaves the store
unchanged, and an error arises only from storage failure. -/
theorem insert_existing_is_noop (dbFail : Bool) (st : DBState)
    (pageURL : String) (vec : List Nat) (mt : MediaType)
    (hex : checkPageURLExists st pageURL mt = true) :
    insertMedia false st pageURL vec mt = .ok st ∧
    (∀ e, insertMedia dbFail st pageURL vec mt = .error e → dbFail = true) := by
  constructor
  · cases mt <;>
      simp_all [insertMedia, InsertImage, InsertAudio, insertOnConflictDoNothing,
        checkPageURLExists, tableFor]
  · intro e he
    cases dbFail
    · cases mt <;> simp_all [insertMedia, InsertImage, InsertAudio]
    · rfl

/-- A witness for C4: inserting the already-present key "p" into a
one-row image table is a no-op success. -/
theorem insert_existing_is_noop_witness :
    checkPageURLExists ⟨[("p", [0])], []⟩ "p" .image = true ∧
    insertMedia false ⟨[("p", [0])], []⟩ "p" [5] .image =
      .ok ⟨[("p", [0])], []⟩ :=
  ⟨by decide,
   (insert_existing_is_noop false ⟨[("p", [0])], []⟩ "p" [5] .image (by decide)).1⟩

/-! ## Similarity queries (FindSimilarImages / FindSimilarAudio)

The ranking itself happens inside PostgreSQL: the Go code issues
`SELECT page_url, 1 - (feature_vector <=> $query) AS similarity ...
ORDER BY similarity DESC LIMIT $limit`. SQL guarantees only that the
returned rows are the first `limit` rows of some ordering of the table
that is non-increasing in the computed similarity; the relative order of
rows with equal similarity is unspecified. The per-row similarity
expression depends only on the stored vector once the query vector is
fixed, so it is abstracted as a function `score` from stored vectors to
rationals. -/

/-- Relation holding between a table and a possible result list of the
`ORDER BY similarity DESC LIMIT n` query (output rows carry the page URL
and its computed similarity). -/
def FindSimilarRel (score : List Nat → ℚ) (tbl : List (String × List Nat))
    (limit : Nat) (out : List (String × ℚ)) : Prop :=
  ∃ rows : List (String × List Nat),
    rows.Perm tbl ∧
    rows.Sorted (fun a b => score a.2 ≥ score b.2) ∧
    out = (rows.map (fun r => (r.1, score r.2))).take limit

/-- A similarity function under which every stored vector of the
counterexample store scores the same. Two rows holding the identical
vector receive the same similarity under every per-vector score, in
particular under real cosine similarity; the constant function is that
common value. -/
def tieScore : List Nat → ℚ := fun _ => 1

/-- Counterexample store: two rows with distinct page URLs and the same
stored vector (so the same similarity against every query vector). -/
def tieStore : List (String × List Nat) :=
  [("a", [1065353216]), ("b", [1065353216])]

/-- Counterexample to C5 as stated: with two equally similar rows and
limit 1, the query relation admits two distinct outputs, so ties are not
broken deterministically and repeated calls against unchanged data need
not return identical output. -/
theorem findSimilar_tie_nondeterministic :
    FindSimilarRel tieScore tieStore 1 [("a", 1)] ∧
    FindSimilarRel tieScore tieStore 1 [("b", 1)] ∧
    ([("a", (1 : ℚ))] : List (String × ℚ)) ≠ [("b", 1)] := by
  refine ⟨⟨tieStore, List.Perm.refl _, ?_, rfl⟩,
    ⟨[("b", [1065353216]), ("a", [1065353216])],
      List.Perm.swap _ _ _, ?_, rfl⟩, by simp⟩
  · simp [tieStore, List.sorted_cons, tieScore]
  · simp [List.sorted_cons, tieScore]

/-- Claim C5 as amended: every output the query relation admits is sorted
by non-increasing similarity, has at most `limit` rows, and consists of
rows of the table paired with their computed similarity. -/
theorem findSimilar_sorted_truncated (score : List Nat → ℚ)
    (tbl : List (String × List Nat)) (limit : Nat) (out : List (String × ℚ))
    (h : FindSimilarRel score tbl limit out) :
    out.Sorted (fun a b => a.2 ≥ b.2) ∧ out.length ≤ limit ∧
    ∀ r ∈ out, ∃ rec ∈ tbl, r.1 = rec.1 ∧ r.2 = score rec.2 := by
  obtain ⟨rows, hperm, hsorted, hout⟩ := h
  subst hout
  refine ⟨?_, ?_, ?_⟩
  · have hmap : (rows.map (fun r => (r.1, score r.2))).Sorted
        (fun a b => a.2 ≥ b.2) := by
      rw [List.Sorted, List.pairwise_map]
      exact hsorted.imp (fun {a b} hab => hab)
    exact hmap.sublist (List.take_sublist _ _)
  · rw [List.length_take]
    exact Nat.min_le_left _ _
  · intro r hr
    have hr' : r ∈ rows.map (fun r => (r.1, score r.2)) :=
      List.mem_of_mem_take hr
    obtain ⟨rec, hrec, rfl⟩ := List.mem_map.mp hr'
    exact ⟨rec, hperm.mem_iff.mp hrec, rfl, rfl⟩

/-- A witness for the amended C5 at the concrete tie store with limit 1. -/
theorem findSimilar_sorted_truncated_witness :
    FindSimilarRel tieScore tieStore 1 [("a", 1)] ∧
    (([("a", (1 : ℚ))] : List (String × ℚ)).Sorted (fun a b => a.2 ≥ b.2) ∧
      ([("a", (1 : ℚ))] : List (String × ℚ)).length ≤ 1 ∧
      ∀ r ∈ ([("a", (1 : ℚ))] : List (String × ℚ)),
        ∃ rec ∈ tieStore, r.1 = rec.1 ∧ r.2 = tieScore rec.2) := by
  have hrel : FindSimilarRel tieScore tieStore 1 [("a", 1)] :=
    ⟨tieStore, List.Perm.refl _, by simp [tieStore, List.sorted_cons, tieScore], rfl⟩
  exact ⟨hrel, findSimilar_sorted_truncated tieScore tieStore 1 [("a", 1)] hrel⟩

/-! ## Feature-extraction collaborator (featurepb) and service errors -/

/-- Embedding of the feature service's `Status` enum. -/
inductive FEStatus where
  | success
  | failedDownload
  | failedProcessing
  | failedUnsupportedType
  | failedDeserialization
  | statusUnknown
deriving DecidableEq, Repr

/-- Embedding of a `FeatureResult` message returned by the feature
extractor. -/
structure FEResult where
  url : String
  status : FEStatus
  errorMessage : String
  featureVector : List Nat
deriving DecidableEq, Repr

/-- Errors produced by the index service's per-item processing, one
constructor per `fmt.Errorf` return in `processSingleScrapedItem` and
`IndexDirectMedia` (wrapping/message text dropped). -/
inductive ItemError where
  | unsupportedMediaType
  | dbCheckFailed
  | feCallFailed
  | unexpectedResultCount (n : Nat)
  | extractionFailed (st : FEStatus) (msg : String)
  | emptyVector
  | vectorDecodeFailed (e : VecError)
  | dbInsertFailed
  | emptyFile
  | missingPageURL
deriving DecidableEq, Repr

/-! ## Ingestion pipeline (internal/service/index-service.go) -/

/-- Embedding of an `ipb.ScrapedItem`. Its protobuf media-type field may
carry any enum value; the service's switch recognizes IMAGE and AUDIO and
errors on everything else, so the field is embedded as an `Option`, with
`none` standing for every unrecognized value. -/
structure ScrapedItem where
  pageUrl : String
  mediaUrl : String
  mediaType : Option MediaType
deriving DecidableEq, Repr

/-- Oracles for the remote collaborators of the batch pipeline, resolved
per item: the feature extractor's `ProcessUrls` reply (`Except.error` for
a failed gRPC call, including calls failed by context cancellation), and
I/O-failure flags for the repository's existence check and insert. -/
structure PipelineEnv where
  fe : ScrapedItem → Except Unit (List FEResult)
  checkFail : ScrapedItem → Bool
  insertFail : ScrapedItem → Bool

/-- Embedding of `processSingleScrapedItem`: media-type dispatch, dedup
check (skip with success when present), single-item feature extraction,
result-count and status validation, vector decoding, conditional insert.
Returns the item's outcome and the store state it leaves behind. -/
def processSingleScrapedItem (env : PipelineEnv) (st : DBState)
    (item : ScrapedItem) : Except ItemError Unit × DBState :=
  match item.mediaType with
  | none => (.error .unsupportedMediaType, st)
  | some mt =>
    if env.checkFail item then (.error .dbCheckFailed, st)
    else if checkPageURLExists st item.pageUrl mt then (.ok (), st)
    else
      match env.fe item with
      | .error _ => (.error .feCallFailed, st)
      | .ok results =>
        match results with
        | [result] =>
          if result.status ≠ .success then
            (.error (.extractionFailed result.status result.errorMessage), st)
          else if result.featureVector.length = 0 then
            (.error .emptyVector, st)
          else
            match VectorFromBytes result.featureVector with
            | .error e => (.error (.vectorDecodeFailed e), st)
            | .ok vector =>
              match insertMedia (env.insertFail item) st item.pageUrl vector mt with
              | .error _ => (.error .dbInsertFailed, st)
              | .ok st' => (.ok (), st')
        | _ => (.error (.unexpectedResultCount results.length), st)

/-- Embedding of the closure passed to `g.Go` for one item: on a
processing error it records a failure (send on `failedChan`) and returns
nil; on success it records a success (send on `processedChan`) and
returns nil. The first component is the closure's Go return value —
literally `nil` on both paths (lines 46 and 50 of index-service.go). -/
def itemTask (env : PipelineEnv) (st : DBState) (item : ScrapedItem) :
    Option Unit × Bool × DBState :=
  match processSingleScrapedItem env st item with
  | (.error _, st') => (none, false, st')
  | (.ok _, st') => (none, true, st')

/-- Result of `HandleScrapedBatch`: the two drained channel counts, the
batch-level error (`g.Wait()`'s value, wrapped when non-nil), and the
final store state. -/
structure BatchResult where
  processedCount : Nat
  failedCount : Nat
  err : Option Unit
  state : DBState
deriving Repr

/-- Embedding of `HandleScrapedBatch`: run the per-item task for every
item, drain the success/failure counts, and surface the errgroup's
`Wait()` value — the first non-nil closure return value — as the batch
error. Concurrent interleavings differ only in the order the store state
is threaded; this embedding threads it in batch order. -/
def HandleScrapedBatch (env : PipelineEnv) (st : DBState) :
    List ScrapedItem → BatchResult
  | [] => ⟨0, 0, none, st⟩
  | item :: rest =>
      let t := itemTask env st item
      let r := HandleScrapedBatch env t.2.2 rest
      { processedCount := (if t.2.1 then 1 else 0) + r.processedCount,
        failedCount := (if t.2.1 then 0 else 1) + r.failedCount,
        err := t.1.orElse (fun _ => r.err),
        state := r.state }

/-- Per-item success flags of a batch in processing order, used to state
the counting claims. -/
def batchOutcomes (env : PipelineEnv) (st : DBState) :
    List ScrapedItem → List Bool
  | [] => []
  | item :: rest =>
      let t := itemTask env st item
      t.2.1 :: batchOutcomes env t.2.2 rest

theorem itemTask_ret_nil (env : PipelineEnv) (st : DBState)
    (item : ScrapedItem) : (itemTask env st item).1 = none := by
  unfold itemTask
  rcases processSingleScrapedItem env st item with ⟨res, st'⟩
  cases res <;> rfl

theorem HandleScrapedBatch_spec (env : PipelineEnv) (items : List ScrapedItem) :
    ∀ st : DBState,
      (HandleScrapedBatch env st items).err = none ∧
      (HandleScrapedBatch env st items).processedCount =
        (batchOutcomes env st items).count true ∧
      (HandleScrapedBatch env st items).failedCount =
        (batchOutcomes env st items).count false ∧
      (batchOutcomes env st items).length = items.length := by
  induction items with
  | nil => exact fun st => ⟨rfl, rfl, rfl, rfl⟩
  | cons item rest ih =>
      intro st
      obtain ⟨h1, h2, h3, h4⟩ := ih (itemTask env st item).2.2
      have hnil := itemTask_ret_nil env st item
      simp only [HandleScrapedBatch, batchOutcomes, hnil]
      cases hb : (itemTask env st item).2.1 <;>
        simp_all [List.count_cons, Option.orElse] <;> omega

theorem count_true_add_count_false (l : List Bool) :
    l.count true + l.count false = l.length := by
  induction l with
  | nil => rfl
  | cons b l ih => cases b <;> simp [List.count_cons] <;> omega

theorem batch_partition (env : PipelineEnv) (st : DBState)
    (items : List ScrapedItem) :
    (HandleScrapedBatch env st items).processedCount +
      (HandleScrapedBatch env st items).failedCount = items.length := by
  obtain ⟨-, h2, h3, h4⟩ := HandleScrapedBatch_spec env items st
  rw [h2, h3, ← h4]
  exact count_true_add_count_false _

theorem processSingle_skip (env : PipelineEnv) (st : DBState)
    (item : ScrapedItem) (mt : MediaType) (hmt : item.mediaType = some mt)
    (hcf : env.checkFail item = false)
    (hex : checkPageURLExists st item.pageUrl mt = true) :
    processSingleScrapedItem env st item = (.ok (), st) := by
  unfold processSingleScrapedItem
  simp only [hmt, hcf, hex]
  rfl

/-- Claim C2: every per-item failure is converted into a failed-count
increment and never into a batch-level error — the batch error
(`g.Wait()`'s value) is `none` on every input, because each per-item
closure returns nil on both paths, so in particular a non-nil batch error
can arise in no circumstance at all; every item of the batch is attempted
and accounted (counts sum to the batch size). -/
theorem handleScrapedBatch_isolates_failures (env : PipelineEnv)
    (st : DBState) (items : List ScrapedItem) :
    (HandleScrapedBatch env st items).err = none ∧
    (HandleScrapedBatch env st items).failedCount =
      (batchOutcomes env st items).count false ∧
    (HandleScrapedBatch env st items).processedCount +
      (HandleScrapedBatch env st items).failedCount = items.length := by
  obtain ⟨h1, -, h3, -⟩ := HandleScrapedBatch_spec env items st
  exact ⟨h1, h3, batch_partition env st items⟩

/-- Claim C9: for every batch (the call never returns an error at all),
processedCount + failedCount equals the batch size — every item
increments exactly one of the two counters — and an item skipped as an
already-present duplicate finishes successfully, so it is counted in
processedCount. -/
theorem handleScrapedBatch_counts_partition (env : PipelineEnv)
    (st : DBState) (items : List ScrapedItem) :
    (HandleScrapedBatch env st items).processedCount +
      (HandleScrapedBatch env st items).failedCount = items.length ∧
    ∀ (st' : DBState) (item : ScrapedItem) (mt : MediaType),
      item.mediaType = some mt → env.checkFail item = false →
      checkPageURLExists st' item.pageUrl mt = true →
      processSingleScrapedItem env st' item = (.ok (), st') :=
  ⟨batch_partition env st items,
   fun st' item mt hmt hcf hex => processSingle_skip env st' item mt hmt hcf hex⟩

/-- Concrete pipeline environment with healthy storage and a feature
extractor that returns no results (never reached in the counterexample
runs below). -/
def env0 : PipelineEnv :=
  ⟨fun _ => .ok [], fun _ => false, fun _ => false⟩

/-- Concrete store already holding page "p" in the images table. -/
def st0 : DBState := ⟨[("p", [0])], []⟩

/-- Concrete scraped item whose page URL is already indexed. -/
def item0 : ScrapedItem := ⟨"p", "m", some .image⟩

/-- A witness for C9 at the one-item batch whose item is an
already-present duplicate. -/
theorem handleScrapedBatch_counts_partition_witness :
    (HandleScrapedBatch env0 st0 [item0]).processedCount +
      (HandleScrapedBatch env0 st0 [item0]).failedCount = 1 ∧
    processSingleScrapedItem env0 st0 item0 = (.ok (), st0) := by
  obtain ⟨h1, h2⟩ := handleScrapedBatch_counts_partition env0 st0 [item0]
  exact ⟨h1, h2 st0 item0 .image rfl rfl (by decide)⟩

/-- Counterexample to C1 as stated: a batch of one item whose page URL is
already present is skipped, yet the processed count becomes 1 (the
closure treats the nil return of the skip path as a success and sends on
`processedChan`), so itemsReceived − (itemsProcessed + itemsFailed) = 0
while the number of duplicate-skip items is 1, and the skipped item does
increment the processed count. -/
theorem batch_skip_counted_processed_cex :
    checkPageURLExists st0 item0.pageUrl MediaType.image = true ∧
    (HandleScrapedBatch env0 st0 [item0]).processedCount = 1 ∧
    (HandleScrapedBatch env0 st0 [item0]).failedCount = 0 ∧
    ¬ ([item0].length - ((HandleScrapedBatch env0 st0 [item0]).processedCount +
        (HandleScrapedBatch env0 st0 [item0]).failedCount) = 1) := by
  refine ⟨by decide, by decide, by decide, by decide⟩

/-- Claim C1 as amended: itemsProcessed + itemsFailed ≤ itemsReceived
holds with equality — the difference is always 0, not the number of
duplicate-skip items — because a skipped item increments the processed
count (and not the failed count). -/
theorem batch_skip_increments_processed (env : PipelineEnv) (st : DBState)
    (item : ScrapedItem) (rest : List ScrapedItem) (mt : MediaType)
    (hmt : item.mediaType = some mt) (hcf : env.checkFail item = false)
    (hex : checkPageURLExists st item.pageUrl mt = true) :
    (HandleScrapedBatch env st (item :: rest)).processedCount +
      (HandleScrapedBatch env st (item :: rest)).failedCount =
      (item :: rest).length ∧
    (HandleScrapedBatch env st (item :: rest)).processedCount =
      1 + (HandleScrapedBatch env st rest).processedCount ∧
    (HandleScrapedBatch env st (item :: rest)).failedCount =
      (HandleScrapedBatch env st rest).failedCount := by
  have hskip := processSingle_skip env st item mt hmt hcf hex
  have hstep : itemTask env st item = (none, true, st) := by
    unfold itemTask
    rw [hskip]
  refine ⟨batch_partition env st (item :: rest), ?_, ?_⟩ <;>
    simp [HandleScrapedBatch, hstep]

/-- A witness for the amended C1 at the concrete duplicate item. -/
theorem batch_skip_increments_processed_witness :
    (HandleScrapedBatch env0 st0 [item0]).processedCount +
      (HandleScrapedBatch env0 st0 [item0]).failedCount = 1 ∧
    (HandleScrapedBatch env0 st0 [item0]).processedCount =
      1 + (HandleScrapedBatch env0 st0 []).processedCount := by
  obtain ⟨h1, h2, -⟩ :=
    batch_skip_increments_processed env0 st0 item0 [] MediaType.image
      rfl rfl (by decide)
  exact ⟨h1, h2⟩

/-! ## Direct indexing (IndexDirectMedia, internal/service/index-service.go)

The multipart upload handling (opening and reading the file) is pure I/O
and is embedded as the resulting byte content; the media type is the
result of `determineMediaType`. -/

/-- Oracles for the collaborators of a direct-index call: the feature
extractor's `ProcessBytes` reply and I/O-failure flags for the
repository's existence check and insert. -/
structure DirectEnv where
  fe : Except Unit (List FEResult)
  checkFail : Bool
  insertFail : Bool

/-- Outcome of a direct-index call: the returned error (if any), the
store state after the call, and how many feature-extraction calls were
issued. -/
structure DirectOutcome where
  result : Except ItemError Unit
  state : DBState
  feCalls : Nat
deriving Repr

/-- Embedding of `IndexDirectMedia`: empty-upload and missing-pageURL
guards, dedup check (return nil when present, before any extraction
call), single-item extraction via `ProcessBytes`, result-count and
status validation, vector decoding, and the conditional insert. The
reference-ID mismatch branch only logs, so it has no effect here. -/
def IndexDirectMedia (env : DirectEnv) (st : DBState) (mt : MediaType)
    (fileBytes : List Nat) (pageURL : Option String) : DirectOutcome :=
  if fileBytes.length = 0 then ⟨.error .emptyFile, st, 0⟩
  else
    match pageURL with
    | none => ⟨.error .missingPageURL, st, 0⟩
    | some dbURL =>
      if dbURL = "" then ⟨.error .missingPageURL, st, 0⟩
      else if env.checkFail then ⟨.error .dbCheckFailed, st, 0⟩
      else if checkPageURLExists st dbURL mt then ⟨.ok (), st, 0⟩
      else
        match env.fe with
        | .error _ => ⟨.error .feCallFailed, st, 1⟩
        | .ok results =>
          match results with
          | [result] =>
            if result.status ≠ .success then
              ⟨.error (.extractionFailed result.status result.errorMessage), st, 1⟩
            else if result.featureVector.length = 0 then
              ⟨.error .emptyVector, st, 1⟩
            else
              match VectorFromBytes result.featureVector with
              | .error e => ⟨.error (.vectorDecodeFailed e), st, 1⟩
              | .ok vector =>
                match insertMedia env.insertFail st dbURL vector mt with
                | .error _ => ⟨.error .dbInsertFailed, st, 1⟩
                | .ok st' => ⟨.ok (), st', 1⟩
          | _ => ⟨.error (.unexpectedResultCount results.length), st, 1⟩

/-- Claim C7: when the feature extractor reports a non-success status for
a direct-index call, the call returns the extraction-failure error and
the store is left unchanged (no record inserted). -/
theorem indexDirect_extraction_failure_no_insert (env : DirectEnv)
    (st : DBState) (mt : MediaType) (fileBytes : List Nat) (dbURL : String)
    (result : FEResult) (hb : fileBytes.length ≠ 0) (hurl : dbURL ≠ "")
    (hcf : env.checkFail = false)
    (hex : checkPageURLExists st dbURL mt = false)
    (hfe : env.fe = .ok [result]) (hst : result.status ≠ .success) :
    IndexDirectMedia env st mt fileBytes (some dbURL) =
      ⟨.error (.extractionFailed result.status result.errorMessage), st, 1⟩ := by
  unfold IndexDirectMedia
  simp only [hb, hurl, hcf, hex, hfe, hst, if_false, if_neg hb, if_neg hurl]
  simp [hst]

/-- Concrete direct-index environment whose extractor reports
failed_download. -/
def envFD : DirectEnv :=
  ⟨.ok [⟨"u", .failedDownload, "download failed", []⟩], false, false⟩

/-- A witness for C7: a failed_download reply on an empty store yields
the extraction-failure error and no insert. -/
theorem indexDirect_extraction_failure_no_insert_witness :
    IndexDirectMedia envFD ⟨[], []⟩ MediaType.image [7] (some "u") =
      ⟨.error (.extractionFailed .failedDownload "download failed"), ⟨[], []⟩, 1⟩ :=
  indexDirect_extraction_failure_no_insert envFD ⟨[], []⟩ MediaType.image [7] "u"
    ⟨"u", .failedDownload, "download failed", []⟩
    (by decide) (by decide) rfl (by decide) rfl (by decide)

/-- Claim C10: a direct-index call whose page URL is already present in
the target class's table returns success, performs no insert (store
unchanged) and issues no feature-extraction call. -/
theorem indexDirect_duplicate_skips (env : DirectEnv) (st : DBState)
    (mt : MediaType) (fileBytes : List Nat) (dbURL : String)
    (hb : fileBytes.length ≠ 0) (hurl : dbURL ≠ "")
    (hcf : env.checkFail = false)
    (hex : checkPageURLExists st dbURL mt = true) :
    IndexDirectMedia env st mt fileBytes (some dbURL) = ⟨.ok (), st, 0⟩ := by
  unfold IndexDirectMedia
  simp [hb, hurl, hcf, hex]

/-- A witness for C10 on the one-row store holding page "p". -/
theorem indexDirect_duplicate_skips_witness :
    IndexDirectMedia envFD st0 MediaType.image [7] (some "p") =
      ⟨.ok (), st0, 0⟩ :=
  indexDirect_duplicate_skips envFD st0 MediaType.image [7] "p"
    (by decide) (by decide) rfl (by decide)

/-! ## Concurrency bound of the batch pipeline (C8)

`HandleScrapedBatch` sets `g.SetLimit(runtime.GOMAXPROCS(0) * 2)` on its
errgroup before launching one task per item. The scheduler enforcing the
limit lives in the errgroup library (golang.org/x/sync), not in this
repository, so it is modelled from its documented contract: `SetLimit(n)`
makes `Go` block while `n` goroutines of the group are active, so a new
task starts only when fewer than `n` are active. The pool is a transition
system over queued/active/done task counts. -/

/-- Embedding of line 28 of index-service.go: the concurrency bound is
twice the available hardware parallelism. -/
def concurrencyLimit (gomaxprocs : Nat) : Nat := gomaxprocs * 2

/-- State of the worker pool for one batch: tasks not yet started, tasks
currently running, tasks finished. -/
structure PoolState where
  queued : Nat
  active : Nat
  done : Nat
deriving DecidableEq, Repr

/-- Transitions of the bounded pool: a queued task may start only while
fewer than `limit` tasks are active (the `SetLimit` contract), and an
active task may finish at any time. -/
inductive PoolStep (limit : Nat) : PoolState → PoolState → Prop where
  | start (s : PoolState) (hq : 0 < s.queued) (ha : s.active < limit) :
      PoolStep limit s ⟨s.queued - 1, s.active + 1, s.done⟩
  | finish (s : PoolState) (ha : 0 < s.active) :
      PoolStep limit s ⟨s.queued, s.active - 1, s.done + 1⟩

/-- States reachable while processing a batch of `n` items: initially all
`n` tasks are queued and none runs. -/
inductive PoolReachable (limit n : Nat) : PoolState → Prop where
  | init : PoolReachable limit n ⟨n, 0, 0⟩
  | step (s s' : PoolState) (hs : PoolReachable limit n s)
      (hstep : PoolStep limit s s') : PoolReachable limit n s'

/-- Claim C8: at every reachable point of a batch of any size, the number
of concurrently running per-item tasks — hence of simultaneously
in-flight extraction calls — never exceeds the configured bound
`GOMAXPROCS * 2`. -/
theorem pool_respects_concurrency_limit (gomaxprocs n : Nat) (s : PoolState)
    (hs : PoolReachable (concurrencyLimit gomaxprocs) n s) :
    s.active ≤ concurrencyLimit gomaxprocs := by
  induction hs with
  | init => exact Nat.zero_le _
  | step s s' hs hstep ih =>
      cases hstep with
      | start hq ha => exact ha
      | finish ha => exact le_trans (Nat.sub_le _ _) ih

/-- A witness for C8: with GOMAXPROCS = 2 (bound 4) and a batch of 100
items, the state after starting one task is reachable and satisfies the
bound. -/
theorem pool_respects_concurrency_limit_witness :
    PoolReachable (concurrencyLimit 2) 100 ⟨99, 1, 0⟩ ∧
    (PoolState.mk 99 1 0).active ≤ concurrencyLimit 2 := by
  have hreach : PoolReachable (concurrencyLimit 2) 100 ⟨99, 1, 0⟩ :=
    .step ⟨100, 0, 0⟩ ⟨99, 1, 0⟩ .init
      (.start ⟨100, 0, 0⟩ (by decide) (by decide))
  exact ⟨hreach, pool_respects_concurrency_limit 2 100 ⟨99, 1, 0⟩ hreach⟩

end WebSearch
